import Mathlib

/-!
Shallow embedding of the outbound content-delivery pipeline of
tg-hydrus-import-bot (tg_parse_requests.py, ffmpeg.py, tools.py).

Modelling conventions:
* byte strings are `List Nat` (one entry per byte); `length` is the byte size;
* the external ffmpeg encoder (`ffmpeg.get_io_mp4`) is an abstract parameter
  `enc : Bytes → String → String → Except Unit Bytes`; the `.error` case models
  the `RuntimeError` it raises when the subprocess wrote to stderr;
* the Pillow decoder (`Image.open` + `.size`) is an abstract parameter
  `dec : Bytes → Option (Nat × Nat)` (decoded width/height; `none` models a
  decoding exception, caught by `_resize_image`'s `except` clause);
* the Pillow JPEG re-encoder (`img.resize(...).save(..., format="JPEG",
  quality=JPEG_QUALITY)`) is an abstract parameter
  `jpeg : Bytes → Nat × Nat → Bytes` giving the encoded bytes for the original
  image at the given target dimensions;
* Python floats are modelled as exact rationals; `scale_step = (2/3)**0.5`
  is taken at the exact dyadic value of that double;
* Python exceptions are `Except`, `None`-returning functions are `Option`;
* Python truthiness of `bytes | None` (`if content:`) is: not `none` and
  not the empty byte string.
-/

namespace TgHydrus

/-- Byte strings, one natural per byte. -/
abbrev Bytes := List Nat

/-- External video encoder: content, input format, output codec preset. -/
abbrev Encoder := Bytes → String → String → Except Unit Bytes

/-- MAX_FILE_SIZE = 50000000 (tg_parse_requests.py line 20). -/
def MAX_FILE_SIZE : Nat := 50000000

/-- MAX_PHOTO_SIZE = 10000000 (tg_parse_requests.py line 21). -/
def MAX_PHOTO_SIZE : Nat := 10000000

/-- JPEG_QUALITY = 85 (tg_parse_requests.py line 22); folded into `jpeg`. -/
def JPEG_QUALITY : Nat := 85

/-- STREAM_CHUNK_SIZE = 8388608 (tg_parse_requests.py line 152). -/
def STREAM_CHUNK_SIZE : Nat := 8388608

/-- Python truthiness of a `bytes | None` value: `none` and the empty byte
string are falsy. -/
def truthy : Option Bytes → Option Bytes
  | none => none
  | some c => if c.isEmpty then none else some c

/-- Python `s.startswith(p)`: the characters of `p` are an initial segment of
the characters of `s`. -/
def pyStartsWith (s p : String) : Bool := p.data.isPrefixOf s.data

/-- Characters after the first slash, or `none` when there is no slash. -/
def afterFirstSlash : List Char → Option (List Char)
  | [] => none
  | c :: rest => if c = '/' then some rest else afterFirstSlash rest

/-- Python `mime_type.split("/", 1)[-1]`: everything after the first slash,
or the whole string when it has no slash. -/
def mimeSubtype (s : String) : String :=
  match afterFirstSlash s.data with
  | some rest => String.mk rest
  | none => s

/-- Python `s.lower()` on the ASCII strings involved here: lower-case each
character. -/
def pyLower (s : String) : String := String.mk (s.data.map Char.toLower)

/-- Ordered codec preset list of `_convert_video_to_mp4`
(tg_parse_requests.py line 107). -/
def OUT_PRESETS : List String := ["x264", "x265-gpu", "x265"]

/-- Preset loop of `_convert_video_to_mp4` (lines 107-115): call the encoder
per codec; a raised encoder error propagates out of the loop; otherwise return
the first output within MAX_FILE_SIZE, or `none` after the list is exhausted. -/
def convLoop (step : String → Except Unit Bytes) : List String → Except Unit (Option Bytes)
  | [] => .ok none
  | codec :: rest =>
    match step codec with
    | .error e => .error e
    | .ok converted =>
      if converted.length ≤ MAX_FILE_SIZE then .ok (some converted)
      else convLoop step rest

/-- Instrumented preset loop: same result as `convLoop`, plus the list of
codecs actually invoked, in invocation order. -/
def convLoopTrace (step : String → Except Unit Bytes) :
    List String → Except Unit (Option Bytes) × List String
  | [] => (.ok none, [])
  | codec :: rest =>
    match step codec with
    | .error e => (.error e, [codec])
    | .ok converted =>
      if converted.length ≤ MAX_FILE_SIZE then (.ok (some converted), [codec])
      else
        let r := convLoopTrace step rest
        (r.1, codec :: r.2)

/-- Model of `_convert_video_to_mp4` (tg_parse_requests.py lines 100-115):
mp4 input already within the limit is returned unchanged; otherwise the
preset loop runs. Encoder exceptions propagate (there is no try/except
around the loop). -/
def convertVideoToMp4 (enc : Encoder) (content : Bytes) (mimeType : String) :
    Except Unit (Option Bytes) :=
  let inputFormat := pyLower (mimeSubtype mimeType)
  if inputFormat = "mp4" ∧ content.length ≤ MAX_FILE_SIZE then .ok (some content)
  else convLoop (fun codec => enc content inputFormat codec) OUT_PRESETS

/-- Model of `_async_convert` (tg_parse_requests.py lines 91-98): run the
conversion and turn any raised exception into `None`. -/
def asyncConvert (r : Except Unit (Option Bytes)) : Option Bytes :=
  match r with
  | .error _ => none
  | .ok v => v

/-- Fixed shrink factor `scale_step = (2/3)**0.5` of `_resize_image`
(line 127), at the exact value of the IEEE double 0.816496580927726. -/
def scaleStep : ℚ := 3677173697615391 / 4503599627370496

/-- Dimensions attempted by one resize step (line 133):
`(int(original_width * scale), int(original_height * scale))`. -/
def newSize (w h : Nat) (scale : ℚ) : Nat × Nat :=
  (⌊(w : ℚ) * scale⌋₊, ⌊(h : ℚ) * scale⌋₊)

/-- Initial scale of `_resize_image` (lines 128-131): `10000 / max_dimension`
when the larger dimension is nonzero, else 1. -/
def initScale (w h : Nat) : ℚ :=
  if max w h ≠ 0 then 10000 / ((max w h : Nat) : ℚ) else 1

/-- Outcome of the downscale `while` loop of `_resize_image`. -/
inductive ResizeResult where
  | fit (out : Bytes)
  | stopped (scale : ℚ) (pixelSize : Nat)
  | fuelOut
deriving DecidableEq

/-- Fuel bound for the `while` loop of `_resize_image`. The loop is a genuine
`while` in the source; `resize_search_terminates` shows this fuel is never
exhausted, so the bound is semantically neutral. -/
def RESIZE_FUEL : Nat := 200

/-- The `while scale > 0.001 and pixel_size > 1` loop of `_resize_image`
(lines 132-145): re-encode at the scaled dimensions, return the first
encoding within `maxSize`, else multiply the scale by `scaleStep` and update
the projected pixel count. -/
def resizeLoop (jpeg : Nat × Nat → Bytes) (maxSize w h : Nat) :
    Nat → ℚ → Nat → ResizeResult
  | 0, _, _ => .fuelOut
  | fuel + 1, scale, pixelSize =>
    if 1 / 1000 < scale ∧ 1 < pixelSize then
      let ns := newSize w h scale
      let out := jpeg ns
      if out.length ≤ maxSize then .fit out
      else resizeLoop jpeg maxSize w h fuel (scale * scaleStep) (ns.1 * ns.2)
    else .stopped scale pixelSize

/-- Model of `_resize_image` (tg_parse_requests.py lines 117-150): content
already within `maxSize` is returned unchanged; otherwise decode the image
(exceptions give `None`) and run the downscale search; a search that stops
without a fitting encoding gives `None`. -/
def resizeImage (dec : Bytes → Option (Nat × Nat)) (jpeg : Bytes → Nat × Nat → Bytes)
    (content : Bytes) (maxSize : Nat) : Option Bytes :=
  if content.length ≤ maxSize then some content
  else
    match dec content with
    | none => none
    | some (w, h) =>
      match resizeLoop (jpeg content) maxSize w h RESIZE_FUEL (initScale w h) (w * h) with
      | .fit out => some out
      | _ => none

/-- Chunking of a sequence into pieces of `k + 1` items, as
`response.iter_content` yields them to `_stream_content`. -/
def chunksOfSucc (k : Nat) : List α → List (List α)
  | [] => []
  | b :: rest => ((b :: rest).take (k + 1)) :: chunksOfSucc k ((b :: rest).drop (k + 1))
  termination_by l => l.length
  decreasing_by simp; omega

/-- Accumulating loop of `_stream_content` (lines 156-161): append each chunk
and fail as soon as the bytes written exceed `maxSize`. -/
def streamLoop (maxSize : Nat) : List Bytes → Bytes → Option Bytes
  | [], acc => some acc
  | chunk :: rest, acc =>
    let acc := acc ++ chunk
    if maxSize < acc.length then none else streamLoop maxSize rest acc

/-- Model of `_stream_content` (tg_parse_requests.py lines 154-161). -/
def streamContent (content : Bytes) (maxSize : Nat) : Option Bytes :=
  streamLoop maxSize (chunksOfSucc (STREAM_CHUNK_SIZE - 1) content) []

/-- Relevant parts of a `requests.Response`: the Content-Type header, the
parsed Content-Length header (0 when absent), and the body bytes. -/
structure Response where
  contentType : String
  contentLength : Nat
  content : Bytes

/-- Outbound aiogram call chosen by `send_content_from_response`. -/
inductive AnswerMethod where
  | video
  | animation
  | photo
  | audio
  | document
deriving DecidableEq

/-- Message actually transmitted: the chosen aiogram method, the payload
handed to `BufferedInputFile`, and the `supports_streaming` kwarg. -/
structure SentMessage where
  method : AnswerMethod
  file : Bytes
  supportsStreaming : Bool
deriving DecidableEq

/-- Model of `send_content_from_response` (tg_parse_requests.py lines
163-225). Returns `none` where the source returns `None` without
transmitting, otherwise the transmitted message. -/
def sendContentFromResponse (enc : Encoder) (dec : Bytes → Option (Nat × Nat))
    (jpeg : Bytes → Nat × Nat → Bytes) (r : Response) : Option SentMessage :=
  if MAX_FILE_SIZE < r.contentLength then none
  else
    let staged : Option (Bytes × Nat) :=
      if r.contentLength = 0 then
        match truthy (streamContent r.content MAX_FILE_SIZE) with
        | some c => some (c, c.length)
        | none => none
      else some (r.content, r.contentLength)
    match staged with
    | none => none
    | some (content, contentLength) =>
      if pyStartsWith r.contentType "video/" then
        match truthy (asyncConvert (convertVideoToMp4 enc content r.contentType)) with
        | some mp4Content => some ⟨.video, mp4Content, true⟩
        | none => some ⟨.document, content, false⟩
      else if r.contentType = "image/gif" then
        match truthy (asyncConvert (convertVideoToMp4 enc content r.contentType)) with
        | some mp4Content => some ⟨.animation, mp4Content, false⟩
        | none => some ⟨.animation, content, false⟩
      else if pyStartsWith r.contentType "image/" then
        if contentLength ≤ MAX_PHOTO_SIZE then some ⟨.photo, content, false⟩
        else
          match truthy (resizeImage dec jpeg content MAX_PHOTO_SIZE) with
          | some photoContent => some ⟨.photo, photoContent, false⟩
          | none => some ⟨.document, content, false⟩
      else if r.contentType = "audio/mp3" ∨ r.contentType = "audio/m4a" then
        some ⟨.audio, content, false⟩
      else
        some ⟨.document, content, false⟩

/-- Model of `tools.split_text` (tools.py lines 60-65): the Python list
comprehension `[text[i : i + fragment_size] for i in range(0, len(text),
fragment_size)]`; `range(0, n, k)` has `(n + k - 1) / k` elements for `k > 0`. -/
def splitText (text : List Char) (fragmentSize : Nat) : List (List Char) :=
  (List.range' 0 ((text.length + fragmentSize - 1) / fragmentSize) fragmentSize).map
    (fun i => (text.drop i).take fragmentSize)

theorem convLoopTrace_fst (step : String → Except Unit Bytes) :
    ∀ l : List String, (convLoopTrace step l).1 = convLoop step l := by
  intro l
  induction l with
  | nil => rfl
  | cons codec rest ih =>
    rw [convLoop, convLoopTrace]
    cases step codec with
    | error e => rfl
    | ok converted =>
      by_cases hc : converted.length ≤ MAX_FILE_SIZE
      · simp [hc]
      · simp [hc, ih]

theorem empty_not_sent_aux (enc : Encoder) (dec : Bytes → Option (Nat × Nat))
    (jpeg : Bytes → Nat × Nat → Bytes) (ct : String) :
    sendContentFromResponse enc dec jpeg ⟨ct, 0, []⟩ = none := by
  simp [sendContentFromResponse, streamContent, chunksOfSucc, streamLoop, truthy,
    MAX_FILE_SIZE]

/-- C9: a zero-length content buffer, whatever its MIME type, makes
`send_content_from_response` return `None` without transmitting anything. -/
theorem empty_content_rejected (enc : Encoder) (dec : Bytes → Option (Nat × Nat))
    (jpeg : Bytes → Nat × Nat → Bytes) (r : Response)
    (hlen : r.contentLength = r.content.length) (hc : r.content = []) :
    sendContentFromResponse enc dec jpeg r = none := by
  obtain ⟨ct, cl, cc⟩ := r
  simp only at hlen hc
  subst hc
  simp only [List.length_nil] at hlen
  subst hlen
  exact empty_not_sent_aux enc dec jpeg ct

/-- Witness for `empty_content_rejected` at a concrete empty response. -/
theorem empty_content_rejected_witness :
    (⟨"video/mp4", 0, []⟩ : Response).contentLength
        = (⟨"video/mp4", 0, []⟩ : Response).content.length ∧
    (⟨"video/mp4", 0, []⟩ : Response).content = [] ∧
    sendContentFromResponse (fun _ _ _ => .ok []) (fun _ => none) (fun _ _ => [])
      (⟨"video/mp4", 0, []⟩ : Response) = none :=
  ⟨rfl, rfl,
    empty_content_rejected (fun _ _ _ => .ok []) (fun _ => none) (fun _ _ => [])
      ⟨"video/mp4", 0, []⟩ rfl rfl⟩

/-- C1 counterexample: a 60 MB `video/quicktime` response, with encoder
presets that would produce 55 MB, 48 MB and 40 MB outputs, is rejected up
front by the Content-Length gate — `send_content_from_response` returns
`None` and never reaches the reduction path. -/
theorem oversized_video_rejected_counterexample :
    sendContentFromResponse
      (fun _ _ codec =>
        .ok (List.replicate (if codec = "x264" then 55000000
              else if codec = "x265-gpu" then 48000000 else 40000000) 0))
      (fun _ => none) (fun _ _ => [])
      ⟨"video/quicktime", 60000000, List.replicate 60000000 0⟩ = none := by
  simp [sendContentFromResponse, MAX_FILE_SIZE]

/-- C1 amended: a buffer whose byte length exceeds the 50 MB hard ceiling is
rejected before any reduction is attempted — `send_content_from_response`
returns `None` for it, for every MIME type and every encoder behaviour. -/
theorem oversized_rejected_before_reduction (enc : Encoder)
    (dec : Bytes → Option (Nat × Nat)) (jpeg : Bytes → Nat × Nat → Bytes)
    (r : Response) (hlen : r.contentLength = r.content.length)
    (hbig : MAX_FILE_SIZE < r.content.length) :
    sendContentFromResponse enc dec jpeg r = none := by
  rw [sendContentFromResponse, if_pos (hlen ▸ hbig)]

/-- Witness for `oversized_rejected_before_reduction` at a concrete
50000001-byte response. -/
theorem oversized_rejected_before_reduction_witness :
    (⟨"video/quicktime", 50000001, List.replicate 50000001 0⟩ : Response).contentLength
        = (⟨"video/quicktime", 50000001, List.replicate 50000001 0⟩ : Response).content.length ∧
    MAX_FILE_SIZE < (⟨"video/quicktime", 50000001,
        List.replicate 50000001 0⟩ : Response).content.length ∧
    sendContentFromResponse (fun _ _ _ => .ok []) (fun _ => none) (fun _ _ => [])
      (⟨"video/quicktime", 50000001, List.replicate 50000001 0⟩ : Response) = none :=
  ⟨by rw [List.length_replicate], by rw [List.length_replicate]; norm_num [MAX_FILE_SIZE],
    oversized_rejected_before_reduction (fun _ _ _ => .ok []) (fun _ => none)
      (fun _ _ => []) ⟨"video/quicktime", 50000001, List.replicate 50000001 0⟩
      (by rw [List.length_replicate])
      (by rw [List.length_replicate]; norm_num [MAX_FILE_SIZE])⟩

/-- C3 counterexample: an encoder failure on the first preset makes the whole
conversion return `None`, even though the next preset would produce a fitting
output — the preset search is aborted by the propagating exception, not
continued with the next preset. -/
theorem encoder_error_aborts_counterexample :
    asyncConvert (convertVideoToMp4
        (fun _ _ codec => if codec = "x264" then .error () else .ok [1])
        [0] "video/webm") = none ∧
    (fun (_ : Bytes) (_ : String) (codec : String) =>
        if codec = "x264" then (.error () : Except Unit Bytes) else .ok [1])
      [0] "webm" "x265-gpu" = .ok [1] ∧
    ([1] : Bytes).length ≤ MAX_FILE_SIZE :=
  ⟨rfl, rfl, by norm_num [MAX_FILE_SIZE]⟩

/-- C3 amended: an encoder error on any preset propagates out of the preset
loop of `_convert_video_to_mp4` (which has no try/except) and is caught only
by `_async_convert`, which returns `None` for the whole conversion; the
remaining presets are not tried. -/
theorem encoder_error_aborts_search (enc : Encoder) (c : Bytes) (mime : String)
    (hfmt : pyLower (mimeSubtype mime) ≠ "mp4") :
    (enc c (pyLower (mimeSubtype mime)) "x264" = .error () →
      asyncConvert (convertVideoToMp4 enc c mime) = none) ∧
    (∀ b1, enc c (pyLower (mimeSubtype mime)) "x264" = .ok b1 →
      MAX_FILE_SIZE < b1.length →
      enc c (pyLower (mimeSubtype mime)) "x265-gpu" = .error () →
      asyncConvert (convertVideoToMp4 enc c mime) = none) ∧
    (∀ b1 b2, enc c (pyLower (mimeSubtype mime)) "x264" = .ok b1 →
      MAX_FILE_SIZE < b1.length →
      enc c (pyLower (mimeSubtype mime)) "x265-gpu" = .ok b2 →
      MAX_FILE_SIZE < b2.length →
      enc c (pyLower (mimeSubtype mime)) "x265" = .error () →
      asyncConvert (convertVideoToMp4 enc c mime) = none) := by
  have hshort : convertVideoToMp4 enc c mime
      = convLoop (fun codec => enc c (pyLower (mimeSubtype mime)) codec) OUT_PRESETS := by
    rw [convertVideoToMp4, if_neg]
    exact fun hand => hfmt hand.1
  refine ⟨?_, ?_, ?_⟩
  · intro h1
    simp [hshort, OUT_PRESETS, convLoop, h1, asyncConvert]
  · intro b1 h1 hb1 h2
    have hb1' : ¬ b1.length ≤ MAX_FILE_SIZE := not_le.mpr hb1
    simp [hshort, OUT_PRESETS, convLoop, h1, hb1', h2, asyncConvert]
  · intro b1 b2 h1 hb1 h2 hb2 h3
    have hb1' : ¬ b1.length ≤ MAX_FILE_SIZE := not_le.mpr hb1
    have hb2' : ¬ b2.length ≤ MAX_FILE_SIZE := not_le.mpr hb2
    simp [hshort, OUT_PRESETS, convLoop, h1, hb1', h2, hb2', h3, asyncConvert]

/-- Witness for `encoder_error_aborts_search` at a concrete always-failing
encoder. -/
theorem encoder_error_aborts_search_witness :
    pyLower (mimeSubtype "video/avi") ≠ "mp4" ∧
    asyncConvert (convertVideoToMp4 (fun _ _ _ => .error ()) [0, 1] "video/avi") = none :=
  ⟨by decide,
    (encoder_error_aborts_search (fun _ _ _ => .error ()) [0, 1] "video/avi"
      (by decide)).1 rfl⟩

/-- C2 counterexample: a 3-byte `video/quicktime` buffer — well under the
50 MB ceiling — is re-encoded: the delivered payload is the encoder output,
not the original bytes. -/
theorem small_video_reencoded_counterexample :
    sendContentFromResponse (fun _ _ _ => .ok [1, 2]) (fun _ => none) (fun _ _ => [])
        ⟨"video/quicktime", 3, [0, 0, 0]⟩
      = some ⟨.video, [1, 2], true⟩ ∧
    ([1, 2] : Bytes) ≠ [0, 0, 0] :=
  ⟨by decide, by decide⟩

theorem send_stage (enc : Encoder) (dec : Bytes → Option (Nat × Nat))
    (jpeg : Bytes → Nat × Nat → Bytes) (ct : String) (cc : Bytes) (hne : cc ≠ [])
    (hfit : cc.length ≤ MAX_FILE_SIZE) :
    sendContentFromResponse enc dec jpeg ⟨ct, cc.length, cc⟩ =
      (if pyStartsWith ct "video/" then
        match truthy (asyncConvert (convertVideoToMp4 enc cc ct)) with
        | some mp4Content => some ⟨.video, mp4Content, true⟩
        | none => some ⟨.document, cc, false⟩
      else if ct = "image/gif" then
        match truthy (asyncConvert (convertVideoToMp4 enc cc ct)) with
        | some mp4Content => some ⟨.animation, mp4Content, false⟩
        | none => some ⟨.animation, cc, false⟩
      else if pyStartsWith ct "image/" then
        if cc.length ≤ MAX_PHOTO_SIZE then some ⟨.photo, cc, false⟩
        else
          match truthy (resizeImage dec jpeg cc MAX_PHOTO_SIZE) with
          | some photoContent => some ⟨.photo, photoContent, false⟩
          | none => some ⟨.document, cc, false⟩
      else if ct = "audio/mp3" ∨ ct = "audio/m4a" then some ⟨.audio, cc, false⟩
      else some ⟨.document, cc, false⟩) := by
  have hne0 : cc.length ≠ 0 := fun h0 => hne (List.length_eq_zero.mp h0)
  rw [sendContentFromResponse]
  rw [if_neg (not_lt.mpr hfit)]
  simp only [if_neg hne0]

/-- C2 amended: a buffer within the 50 MB ceiling is transmitted byte-identical
when it is an mp4 video, a recognised audio type, or a generic document; a
non-mp4 video (and a gif) is re-encoded instead of passed through. -/
theorem fitting_buffer_sent_unchanged (enc : Encoder) (dec : Bytes → Option (Nat × Nat))
    (jpeg : Bytes → Nat × Nat → Bytes) (r : Response)
    (hlen : r.contentLength = r.content.length)
    (hne : r.content ≠ [])
    (hfit : r.content.length ≤ MAX_FILE_SIZE) :
    (r.contentType = "video/mp4" →
      sendContentFromResponse enc dec jpeg r = some ⟨.video, r.content, true⟩) ∧
    ((r.contentType = "audio/mp3" ∨ r.contentType = "audio/m4a") →
      sendContentFromResponse enc dec jpeg r = some ⟨.audio, r.content, false⟩) ∧
    (pyStartsWith r.contentType "video/" = false →
      pyStartsWith r.contentType "image/" = false →
      r.contentType ≠ "audio/mp3" → r.contentType ≠ "audio/m4a" →
      sendContentFromResponse enc dec jpeg r = some ⟨.document, r.content, false⟩) := by
  obtain ⟨ct, cl, cc⟩ := r
  simp only at hlen hne hfit ⊢
  subst hlen
  have hnemp : cc.isEmpty = false := by
    cases cc with
    | nil => exact absurd rfl hne
    | cons a l => rfl
  refine ⟨?_, ?_, ?_⟩
  · intro hct
    subst hct
    rw [send_stage enc dec jpeg _ _ hne hfit]
    rw [if_pos (show pyStartsWith "video/mp4" "video/" = true by decide)]
    have hcond : pyLower (mimeSubtype "video/mp4") = "mp4" ∧ cc.length ≤ MAX_FILE_SIZE :=
      ⟨by decide, hfit⟩
    have hconv : convertVideoToMp4 enc cc "video/mp4" = .ok (some cc) := by
      simp only [convertVideoToMp4]
      rw [if_pos hcond]
    rw [hconv]
    simp [asyncConvert, truthy, hnemp]
  · intro hct
    rcases hct with hct | hct <;> subst hct <;>
      rw [send_stage enc dec jpeg _ _ hne hfit] <;>
      · rw [if_neg (by decide)]
        rw [if_neg (by decide)]
        rw [if_neg (by decide)]
        rw [if_pos (by decide)]
  · intro hv hi ha1 ha2
    have hgif : ct ≠ "image/gif" := by
      intro he
      rw [he] at hi
      exact absurd hi (by decide)
    rw [send_stage enc dec jpeg _ _ hne hfit]
    rw [if_neg (by simp [hv])]
    rw [if_neg hgif]
    rw [if_neg (by simp [hi])]
    rw [if_neg (by simp [ha1, ha2])]

/-- Witness for `fitting_buffer_sent_unchanged` at a concrete
`application/pdf` response. -/
theorem fitting_buffer_sent_unchanged_witness :
    (⟨"application/pdf", 2, [7, 8]⟩ : Response).contentLength
        = (⟨"application/pdf", 2, [7, 8]⟩ : Response).content.length ∧
    (⟨"application/pdf", 2, [7, 8]⟩ : Response).content ≠ [] ∧
    (⟨"application/pdf", 2, [7, 8]⟩ : Response).content.length ≤ MAX_FILE_SIZE ∧
    sendContentFromResponse (fun _ _ _ => .ok []) (fun _ => none) (fun _ _ => [])
        (⟨"application/pdf", 2, [7, 8]⟩ : Response)
      = some ⟨.document, [7, 8], false⟩ :=
  ⟨rfl, by decide, by decide,
    (fitting_buffer_sent_unchanged (fun _ _ _ => .ok []) (fun _ => none) (fun _ _ => [])
      ⟨"application/pdf", 2, [7, 8]⟩ rfl (by decide) (by decide)).2.2
      (by decide) (by decide) (by decide) (by decide)⟩

theorem truthy_some {o : Option Bytes} {c : Bytes} (h : truthy o = some c) :
    o = some c := by
  cases o with
  | none => exact absurd h (by simp [truthy])
  | some c0 =>
    rw [truthy] at h
    by_cases he : c0.isEmpty
    · rw [if_pos he] at h
      exact Option.noConfusion h
    · rw [if_neg he] at h
      exact h

theorem pyStartsWith_image_not_video (s : String)
    (h : pyStartsWith s "image/" = true) : pyStartsWith s "video/" = false := by
  rw [pyStartsWith] at h ⊢
  rw [show ("image/").data = ['i', 'm', 'a', 'g', 'e', '/'] from rfl] at h
  rw [show ("video/").data = ['v', 'i', 'd', 'e', 'o', '/'] from rfl]
  cases hd : s.data with
  | nil =>
    rw [hd] at h
    exact absurd h (by decide)
  | cons c rest =>
    rw [hd] at h
    simp only [List.isPrefixOf_cons₂, Bool.and_eq_true, beq_iff_eq] at h
    obtain ⟨hc, -⟩ := h
    subst hc
    rw [List.isPrefixOf_cons₂]
    rw [show (('v' : Char) == 'i') = false from rfl, Bool.false_and]

/-- C4: on a non-mp4 input, `_convert_video_to_mp4` with a non-raising encoder
is the ordered first-fit search over the fixed preset list: it invokes x264,
then x265-gpu, then x265, each at most once, returns the first output within
the 50 MB target, and returns `None` only after all three produced oversized
output. -/
theorem presets_in_order_first_fit (enc : Encoder) (c : Bytes) (mime : String)
    (hfmt : pyLower (mimeSubtype mime) ≠ "mp4") (b1 b2 b3 : Bytes)
    (h1 : enc c (pyLower (mimeSubtype mime)) "x264" = .ok b1)
    (h2 : enc c (pyLower (mimeSubtype mime)) "x265-gpu" = .ok b2)
    (h3 : enc c (pyLower (mimeSubtype mime)) "x265" = .ok b3) :
    convertVideoToMp4 enc c mime
        = (convLoopTrace (fun codec => enc c (pyLower (mimeSubtype mime)) codec)
            OUT_PRESETS).1 ∧
    (b1.length ≤ MAX_FILE_SIZE →
      convLoopTrace (fun codec => enc c (pyLower (mimeSubtype mime)) codec) OUT_PRESETS
        = (.ok (some b1), ["x264"])) ∧
    (MAX_FILE_SIZE < b1.length → b2.length ≤ MAX_FILE_SIZE →
      convLoopTrace (fun codec => enc c (pyLower (mimeSubtype mime)) codec) OUT_PRESETS
        = (.ok (some b2), ["x264", "x265-gpu"])) ∧
    (MAX_FILE_SIZE < b1.length → MAX_FILE_SIZE < b2.length → b3.length ≤ MAX_FILE_SIZE →
      convLoopTrace (fun codec => enc c (pyLower (mimeSubtype mime)) codec) OUT_PRESETS
        = (.ok (some b3), ["x264", "x265-gpu", "x265"])) ∧
    (MAX_FILE_SIZE < b1.length → MAX_FILE_SIZE < b2.length → MAX_FILE_SIZE < b3.length →
      convLoopTrace (fun codec => enc c (pyLower (mimeSubtype mime)) codec) OUT_PRESETS
        = (.ok none, ["x264", "x265-gpu", "x265"])) := by
  refine ⟨?_, ?_, ?_, ?_, ?_⟩
  · rw [convertVideoToMp4, if_neg (fun hand => hfmt hand.1)]
    rw [convLoopTrace_fst]
  · intro hb1
    simp [OUT_PRESETS, convLoopTrace, h1, hb1]
  · intro hb1 hb2
    have hb1' : ¬ b1.length ≤ MAX_FILE_SIZE := not_le.mpr hb1
    simp [OUT_PRESETS, convLoopTrace, h1, h2, hb1', hb2]
  · intro hb1 hb2 hb3
    have hb1' : ¬ b1.length ≤ MAX_FILE_SIZE := not_le.mpr hb1
    have hb2' : ¬ b2.length ≤ MAX_FILE_SIZE := not_le.mpr hb2
    simp [OUT_PRESETS, convLoopTrace, h1, h2, h3, hb1', hb2', hb3]
  · intro hb1 hb2 hb3
    have hb1' : ¬ b1.length ≤ MAX_FILE_SIZE := not_le.mpr hb1
    have hb2' : ¬ b2.length ≤ MAX_FILE_SIZE := not_le.mpr hb2
    have hb3' : ¬ b3.length ≤ MAX_FILE_SIZE := not_le.mpr hb3
    simp [OUT_PRESETS, convLoopTrace, h1, h2, h3, hb1', hb2', hb3']

/-- Witness for `presets_in_order_first_fit` at a concrete stub encoder whose
first preset already fits. -/
theorem presets_in_order_first_fit_witness :
    pyLower (mimeSubtype "video/webm") ≠ "mp4" ∧
    ([5] : Bytes).length ≤ MAX_FILE_SIZE ∧
    convLoopTrace (fun _ => (Except.ok [5] : Except Unit Bytes)) OUT_PRESETS
      = (.ok (some [5]), ["x264"]) :=
  ⟨by decide, by decide,
    (presets_in_order_first_fit (fun _ _ _ => .ok [5]) [9] "video/webm" (by decide)
      [5] [5] [5] rfl rfl rfl).2.1 (by decide)⟩

theorem resizeLoop_fit_le (jpeg : Nat × Nat → Bytes) (ms w h : Nat) :
    ∀ (fuel : Nat) (s : ℚ) (p : Nat) (out : Bytes),
      resizeLoop jpeg ms w h fuel s p = .fit out → out.length ≤ ms := by
  intro fuel
  induction fuel with
  | zero =>
    intro s p out hfit
    exact absurd hfit (by simp [resizeLoop])
  | succ n ih =>
    intro s p out hfit
    simp only [resizeLoop] at hfit
    by_cases hc : 1 / 1000 < s ∧ 1 < p
    · rw [if_pos hc] at hfit
      by_cases hf : (jpeg (newSize w h s)).length ≤ ms
      · rw [if_pos hf] at hfit
        cases hfit
        exact hf
      · rw [if_neg hf] at hfit
        exact ih _ _ _ hfit
    · rw [if_neg hc] at hfit
      exact ResizeResult.noConfusion hfit

theorem resizeImage_le (dec : Bytes → Option (Nat × Nat)) (jpeg : Bytes → Nat × Nat → Bytes)
    (content : Bytes) (maxSize : Nat) (out : Bytes)
    (hout : resizeImage dec jpeg content maxSize = some out) : out.length ≤ maxSize := by
  rw [resizeImage] at hout
  by_cases h0 : content.length ≤ maxSize
  · rw [if_pos h0] at hout
    cases hout
    exact h0
  · rw [if_neg h0] at hout
    cases hdec : dec content with
    | none =>
      simp only [hdec] at hout
      exact Option.noConfusion hout
    | some wh =>
      obtain ⟨w, h⟩ := wh
      simp only [hdec] at hout
      cases hloop : resizeLoop (jpeg content) maxSize w h RESIZE_FUEL (initScale w h) (w * h) with
      | fit o =>
        simp only [hloop] at hout
        cases hout
        exact resizeLoop_fit_le (jpeg content) maxSize w h _ _ _ _ hloop
      | stopped s p =>
        simp only [hloop] at hout
        exact Option.noConfusion hout
      | fuelOut =>
        simp only [hloop] at hout
        exact Option.noConfusion hout

/-- C6: `_resize_image` short-circuits on an already-fitting input, returning
it unchanged, and re-running it on any of its own successful outputs with the
same target returns that output unchanged. -/
theorem resize_short_circuit_idempotent (dec : Bytes → Option (Nat × Nat))
    (jpeg : Bytes → Nat × Nat → Bytes) (content : Bytes) (maxSize : Nat) :
    (content.length ≤ maxSize → resizeImage dec jpeg content maxSize = some content) ∧
    (∀ out, resizeImage dec jpeg content maxSize = some out →
      resizeImage dec jpeg out maxSize = some out) := by
  constructor
  · intro hle
    rw [resizeImage, if_pos hle]
  · intro out hout
    rw [resizeImage, if_pos (resizeImage_le dec jpeg content maxSize out hout)]

/-- Witness for `resize_short_circuit_idempotent` at a concrete 1-byte image
buffer under a 5-byte target. -/
theorem resize_short_circuit_idempotent_witness :
    ([3] : Bytes).length ≤ 5 ∧
    resizeImage (fun _ => none) (fun _ _ => []) [3] 5 = some [3] :=
  ⟨by decide,
    (resize_short_circuit_idempotent (fun _ => none) (fun _ _ => []) [3] 5).1 (by decide)⟩

/-- C5: for an image response (not a gif), a buffer within the 10 MB photo
ceiling is sent unchanged as a photo; a larger buffer, when delivered at all,
is delivered either as a photo within the photo ceiling or as the original
bytes in a generic document within the 50 MB hard ceiling. -/
theorem photo_path_size_guarantees (enc : Encoder) (dec : Bytes → Option (Nat × Nat))
    (jpeg : Bytes → Nat × Nat → Bytes) (r : Response)
    (himg : pyStartsWith r.contentType "image/" = true)
    (hgif : r.contentType ≠ "image/gif")
    (hlen : r.contentLength = r.content.length)
    (hne : r.content ≠ []) :
    (r.content.length ≤ MAX_PHOTO_SIZE →
      sendContentFromResponse enc dec jpeg r = some ⟨.photo, r.content, false⟩) ∧
    (∀ m, sendContentFromResponse enc dec jpeg r = some m →
      MAX_PHOTO_SIZE < r.content.length →
      (m.method = .photo ∧ m.file.length ≤ MAX_PHOTO_SIZE) ∨
      (m.method = .document ∧ m.file = r.content ∧ m.file.length ≤ MAX_FILE_SIZE)) := by
  obtain ⟨ct, cl, cc⟩ := r
  simp only at himg hgif hlen hne ⊢
  subst hlen
  have hvid : pyStartsWith ct "video/" = false := pyStartsWith_image_not_video ct himg
  constructor
  · intro hle
    have hfit : cc.length ≤ MAX_FILE_SIZE :=
      le_trans hle (by norm_num [MAX_PHOTO_SIZE, MAX_FILE_SIZE])
    rw [send_stage enc dec jpeg _ _ hne hfit]
    rw [if_neg (by simp [hvid])]
    rw [if_neg hgif]
    rw [if_pos himg]
    rw [if_pos hle]
  · intro m hm hgt
    by_cases hfit : cc.length ≤ MAX_FILE_SIZE
    · rw [send_stage enc dec jpeg _ _ hne hfit] at hm
      rw [if_neg (by simp [hvid])] at hm
      rw [if_neg hgif] at hm
      rw [if_pos himg] at hm
      rw [if_neg (not_le.mpr hgt)] at hm
      cases hres : truthy (resizeImage dec jpeg cc MAX_PHOTO_SIZE) with
      | some pc =>
        rw [hres] at hm
        cases hm
        exact Or.inl ⟨rfl,
          resizeImage_le dec jpeg cc MAX_PHOTO_SIZE pc (truthy_some hres)⟩
      | none =>
        rw [hres] at hm
        cases hm
        exact Or.inr ⟨rfl, rfl, hfit⟩
    · rw [sendContentFromResponse] at hm
      rw [if_pos (not_le.mp hfit)] at hm
      exact Option.noConfusion hm

/-- Witness for `photo_path_size_guarantees` at a concrete small png
response. -/
theorem photo_path_size_guarantees_witness :
    pyStartsWith "image/png" "image/" = true ∧
    ("image/png" : String) ≠ "image/gif" ∧
    ([1] : Bytes).length ≤ MAX_PHOTO_SIZE ∧
    sendContentFromResponse (fun _ _ _ => .ok []) (fun _ => none) (fun _ _ => [])
        (⟨"image/png", 1, [1]⟩ : Response)
      = some ⟨.photo, [1], false⟩ :=
  ⟨by decide, by decide, by decide,
    (photo_path_size_guarantees (fun _ _ _ => .ok []) (fun _ => none) (fun _ _ => [])
      ⟨"image/png", 1, [1]⟩ (by decide) (by decide) rfl (by decide)).1 (by decide)⟩

theorem scaleStep_nonneg : (0 : ℚ) ≤ scaleStep := by
  rw [scaleStep]
  norm_num

theorem scaleStep_le : scaleStep ≤ 5 / 6 := by
  rw [scaleStep]
  norm_num

theorem initScale_nonneg (w h : Nat) : (0 : ℚ) ≤ initScale w h := by
  rw [initScale]
  split
  · positivity
  · norm_num

theorem initScale_le (w h : Nat) : initScale w h ≤ 10000 := by
  rw [initScale]
  split
  · next hmax =>
      refine div_le_self (by norm_num) ?_
      exact_mod_cast Nat.one_le_iff_ne_zero.mpr hmax
  · norm_num

theorem resizeLoop_succ (jpeg : Nat × Nat → Bytes) (ms w h fuel : Nat) (scale : ℚ)
    (pixelSize : Nat) :
    resizeLoop jpeg ms w h (fuel + 1) scale pixelSize =
      (if 1 / 1000 < scale ∧ 1 < pixelSize then
        if (jpeg (newSize w h scale)).length ≤ ms then .fit (jpeg (newSize w h scale))
        else resizeLoop jpeg ms w h fuel (scale * scaleStep)
          ((newSize w h scale).1 * (newSize w h scale).2)
      else .stopped scale pixelSize) := rfl

theorem resizeLoop_no_fuelOut (jpeg : Nat × Nat → Bytes) (ms w h : Nat) :
    ∀ (n : Nat) (s : ℚ) (p : Nat), s * scaleStep ^ n ≤ 1 / 1000 →
      resizeLoop jpeg ms w h (n + 1) s p ≠ .fuelOut := by
  intro n
  induction n with
  | zero =>
    intro s p hs
    rw [pow_zero, mul_one] at hs
    simp only [resizeLoop]
    rw [if_neg (fun hc => absurd hs (not_le.mpr hc.1))]
    exact fun he => ResizeResult.noConfusion he
  | succ n ih =>
    intro s p hs
    simp only [resizeLoop]
    by_cases hc : 1 / 1000 < s ∧ 1 < p
    · rw [if_pos hc]
      by_cases hf : (jpeg (newSize w h s)).length ≤ ms
      · rw [if_pos hf]
        exact fun he => ResizeResult.noConfusion he
      · rw [if_neg hf]
        refine ih (s * scaleStep) _ ?_
        calc s * scaleStep * scaleStep ^ n = s * scaleStep ^ (n + 1) := by ring
          _ ≤ 1 / 1000 := hs
    · rw [if_neg hc]
      exact fun he => ResizeResult.noConfusion he

/-- C7: the downscale search of `_resize_image` terminates for every image:
starting from the initial scale the loop never exhausts its fuel bound,
because the scale shrinks geometrically by `scaleStep` after every failed
attempt until the `scale > 0.001 and pixel_size > 1` guard stops the
search. -/
theorem resize_search_terminates (jpeg : Nat × Nat → Bytes)
    (maxSize w h pixelSize : Nat) :
    resizeLoop jpeg maxSize w h RESIZE_FUEL (initScale w h) pixelSize ≠ .fuelOut := by
  have h1 : scaleStep ^ 199 ≤ (5 / 6 : ℚ) ^ 199 :=
    pow_le_pow_left₀ scaleStep_nonneg scaleStep_le 199
  have h2 : initScale w h * scaleStep ^ 199 ≤ 10000 * (5 / 6 : ℚ) ^ 199 :=
    mul_le_mul (initScale_le w h) h1 (pow_nonneg scaleStep_nonneg 199) (by norm_num)
  have hstep : initScale w h * scaleStep ^ 199 ≤ 1 / 1000 :=
    le_trans h2 (by norm_num)
  exact resizeLoop_no_fuelOut jpeg maxSize w h 199 _ _ hstep

/-- C8 counterexample: for a 30000 x 20000 image the first attempted resize is
(10000, 6666), whose width-to-height ratio differs from 30000 : 20000 — the
truncation `int(original_height * scale)` breaks exact ratio equality. -/
theorem aspect_ratio_counterexample :
    resizeLoop (fun ns => [ns.1, ns.2]) MAX_PHOTO_SIZE 30000 20000 RESIZE_FUEL
        (initScale 30000 20000) (30000 * 20000) = .fit [10000, 6666] ∧
    10000 * 20000 ≠ 6666 * 30000 := by
  constructor
  · have hscale : initScale 30000 20000 = 1 / 3 := by
      rw [initScale]
      norm_num
    have hf1 : (⌊((30000 : Nat) : ℚ) * (1 / 3)⌋₊ : Nat) = 10000 := by
      rw [Nat.floor_eq_iff (by norm_num)]
      norm_num
    have hf2 : (⌊((20000 : Nat) : ℚ) * (1 / 3)⌋₊ : Nat) = 6666 := by
      rw [Nat.floor_eq_iff (by norm_num)]
      norm_num
    have hns : newSize 30000 20000 (1 / 3) = (10000, 6666) := by
      rw [newSize, hf1, hf2]
    rw [hscale, show RESIZE_FUEL = 199 + 1 from rfl, resizeLoop_succ]
    rw [if_pos (by norm_num)]
    rw [hns]
    rw [if_pos (by norm_num [MAX_PHOTO_SIZE])]
  · norm_num

/-- C8 amended: every attempted resize applies one common scale factor to both
dimensions and truncates each product to an integer, so the new pair preserves
the original width-to-height ratio only up to truncation error: the cross
products differ by at most the original width on one side and the original
height on the other. -/
theorem aspect_ratio_up_to_truncation (w h : Nat) (s : ℚ) (hs : 0 ≤ s) :
    ((newSize w h s).1 : ℚ) * h - ((newSize w h s).2 : ℚ) * w ≤ w ∧
    ((newSize w h s).2 : ℚ) * w - ((newSize w h s).1 : ℚ) * h ≤ h := by
  have hw : (0 : ℚ) ≤ w := Nat.cast_nonneg w
  have hh : (0 : ℚ) ≤ h := Nat.cast_nonneg h
  have hws : (0 : ℚ) ≤ (w : ℚ) * s := mul_nonneg hw hs
  have hhs : (0 : ℚ) ≤ (h : ℚ) * s := mul_nonneg hh hs
  have f1 : ((newSize w h s).1 : ℚ) ≤ (w : ℚ) * s := by
    simp only [newSize]
    exact Nat.floor_le hws
  have f2 : (w : ℚ) * s < ((newSize w h s).1 : ℚ) + 1 := by
    simp only [newSize]
    exact Nat.lt_floor_add_one _
  have f3 : ((newSize w h s).2 : ℚ) ≤ (h : ℚ) * s := by
    simp only [newSize]
    exact Nat.floor_le hhs
  have f4 : (h : ℚ) * s < ((newSize w h s).2 : ℚ) + 1 := by
    simp only [newSize]
    exact Nat.lt_floor_add_one _
  constructor
  · have t1 : ((newSize w h s).1 : ℚ) * h ≤ ((w : ℚ) * s) * h :=
      mul_le_mul_of_nonneg_right f1 hh
    have t2 : (w : ℚ) * ((h : ℚ) * s) ≤ (w : ℚ) * (((newSize w h s).2 : ℚ) + 1) :=
      mul_le_mul_of_nonneg_left (le_of_lt f4) hw
    nlinarith [t1, t2]
  · have t3 : ((newSize w h s).2 : ℚ) * w ≤ ((h : ℚ) * s) * w :=
      mul_le_mul_of_nonneg_right f3 hw
    have t4 : (h : ℚ) * ((w : ℚ) * s) ≤ (h : ℚ) * (((newSize w h s).1 : ℚ) + 1) :=
      mul_le_mul_of_nonneg_left (le_of_lt f2) hh
    nlinarith [t3, t4]

/-- Witness for `aspect_ratio_up_to_truncation` at the 30000 x 20000 image and
the scale 1/3. -/
theorem aspect_ratio_up_to_truncation_witness :
    (0 : ℚ) ≤ 1 / 3 ∧
    (((newSize 30000 20000 (1 / 3)).1 : ℚ) * 20000
        - ((newSize 30000 20000 (1 / 3)).2 : ℚ) * 30000 ≤ 30000 ∧
      ((newSize 30000 20000 (1 / 3)).2 : ℚ) * 30000
        - ((newSize 30000 20000 (1 / 3)).1 : ℚ) * 20000 ≤ 20000) :=
  ⟨by norm_num, by
    have := aspect_ratio_up_to_truncation 30000 20000 (1 / 3) (by norm_num)
    exact_mod_cast this⟩

theorem splitText_nil (k : Nat) : splitText [] k = [] := by
  rw [splitText]
  have h0 : (List.length ([] : List Char) + k - 1) / k = 0 := by
    rw [List.length_nil]
    cases k with
    | zero => rfl
    | succ m => exact Nat.div_eq_of_lt (by omega)
  rw [h0]
  rfl

theorem splitText_cons (a : Char) (t : List Char) (k : Nat) :
    splitText (a :: t) (k + 1)
      = (a :: t).take (k + 1) :: splitText ((a :: t).drop (k + 1)) (k + 1) := by
  rw [splitText, splitText]
  have hcount : ((a :: t).length + (k + 1) - 1) / (k + 1) = t.length / (k + 1) + 1 := by
    rw [List.length_cons]
    rw [show t.length + 1 + (k + 1) - 1 = t.length + (k + 1) from by omega]
    exact Nat.add_div_right _ (Nat.succ_pos k)
  have hcount2 : (((a :: t).drop (k + 1)).length + (k + 1) - 1) / (k + 1)
      = t.length / (k + 1) := by
    rw [List.length_drop, List.length_cons]
    by_cases hk : k ≤ t.length
    · rw [show t.length + 1 - (k + 1) + (k + 1) - 1 = t.length from by omega]
    · rw [show t.length + 1 - (k + 1) + (k + 1) - 1 = k from by omega]
      rw [Nat.div_eq_of_lt (by omega), Nat.div_eq_of_lt (by omega)]
  rw [hcount, hcount2, List.range'_succ, List.map_cons]
  congr 1
  have shift : ∀ (m s : Nat),
      (List.range' (s + (k + 1)) m (k + 1)).map
          (fun i => ((a :: t).drop i).take (k + 1))
        = (List.range' s m (k + 1)).map
            (fun i => (((a :: t).drop (k + 1)).drop i).take (k + 1)) := by
    intro m
    induction m with
    | zero => intro s; rfl
    | succ m ih =>
      intro s
      rw [List.range'_succ, List.range'_succ, List.map_cons, List.map_cons]
      congr 1
      · rw [List.drop_drop, Nat.add_comm (k + 1) s]
      · exact ih (s + (k + 1))
  exact shift (t.length / (k + 1)) 0

theorem splitText_flatten (k : Nat) : ∀ text : List Char,
    (splitText text (k + 1)).flatten = text
  | [] => by rw [splitText_nil]; rfl
  | a :: t => by
    rw [splitText_cons, List.flatten_cons]
    rw [splitText_flatten k ((a :: t).drop (k + 1))]
    exact List.take_append_drop _ _
  termination_by text => text.length
  decreasing_by simp [List.length_drop]; omega

theorem splitText_length_le (k : Nat) : ∀ (text fr : List Char),
    fr ∈ splitText text (k + 1) → fr.length ≤ k + 1
  | [] => by
    intro fr hfr
    rw [splitText_nil] at hfr
    exact absurd hfr (List.not_mem_nil fr)
  | a :: t => by
    intro fr hfr
    rw [splitText_cons] at hfr
    rcases List.mem_cons.mp hfr with he | hm
    · rw [he]
      exact List.length_take_le _ _
    · exact splitText_length_le k ((a :: t).drop (k + 1)) fr hm
  termination_by text => text.length
  decreasing_by simp [List.length_drop]; omega

theorem splitText_full_of_lt (k : Nat) : ∀ (text : List Char) (i : Nat),
    i + 1 < (splitText text (k + 1)).length →
    ∀ fr, (splitText text (k + 1)).get? i = some fr → fr.length = k + 1
  | [] => by
    intro i h
    rw [splitText_nil] at h
    exact absurd h (by simp)
  | a :: t => by
    intro i
    cases i with
    | zero =>
      intro h fr hfr
      have hlen : k + 1 ≤ (a :: t).length := by
        by_contra hlt
        push_neg at hlt
        have hrest : (a :: t).drop (k + 1) = [] :=
          List.drop_eq_nil_of_le (le_of_lt hlt)
        rw [splitText_cons, hrest, splitText_nil] at h
        simp at h
      rw [splitText_cons, List.get?_cons_zero] at hfr
      injection hfr with hfr
      rw [← hfr, List.length_take]
      omega
    | succ i' =>
      intro h fr hfr
      rw [splitText_cons, List.length_cons] at h
      rw [splitText_cons, List.get?_cons_succ] at hfr
      exact splitText_full_of_lt k ((a :: t).drop (k + 1)) i' (by omega) fr hfr
  termination_by text => text.length
  decreasing_by simp [List.length_drop]; omega

/-- C10: for every text and positive fragment size, the fragments of
`split_text` concatenate back to the text in order, every fragment is at most
the fragment size, and every fragment except possibly the last is exactly the
fragment size. -/
theorem split_text_spec (text : List Char) (fragmentSize : Nat)
    (hpos : 0 < fragmentSize) :
    (splitText text fragmentSize).flatten = text ∧
    (∀ fr ∈ splitText text fragmentSize, fr.length ≤ fragmentSize) ∧
    (∀ (i : Nat) (h : i + 1 < (splitText text fragmentSize).length),
      ((splitText text fragmentSize).get ⟨i, Nat.lt_of_succ_lt h⟩).length
        = fragmentSize) := by
  obtain ⟨k, rfl⟩ : ∃ k, fragmentSize = k + 1 := ⟨fragmentSize - 1, by omega⟩
  refine ⟨splitText_flatten k text,
    fun fr hfr => splitText_length_le k text fr hfr,
    fun i h => ?_⟩
  exact splitText_full_of_lt k text i h _ (List.get?_eq_get (Nat.lt_of_succ_lt h))

/-- Witness for `split_text_spec` on the five-character text abcde with
fragment size two. -/
theorem split_text_spec_witness :
    0 < 2 ∧
    ((splitText ['a', 'b', 'c', 'd', 'e'] 2).flatten = ['a', 'b', 'c', 'd', 'e'] ∧
      (∀ fr ∈ splitText ['a', 'b', 'c', 'd', 'e'] 2, fr.length ≤ 2) ∧
      (∀ (i : Nat) (h : i + 1 < (splitText ['a', 'b', 'c', 'd', 'e'] 2).length),
        ((splitText ['a', 'b', 'c', 'd', 'e'] 2).get
            ⟨i, Nat.lt_of_succ_lt h⟩).length = 2)) :=
  ⟨by decide, split_text_spec ['a', 'b', 'c', 'd', 'e'] 2 (by decide)⟩

end TgHydrus
